import Mathlib

/-!
Verification of the wallet-analysis POC ("fun facts" analyzers).

The TypeScript sources are shallowly embedded: JS numbers are modelled as `Rat`,
nullable fields as `Option`, thrown/failed upstream calls as `Except.error`, and
the analyzers as total Lean functions over the upstream outcomes.  A JS division
whose divisor may be zero is modelled through `jsDiv`, whose `none` stands for
the non-finite float (`Infinity`/`NaN`) JS produces there.  The constant `type`
tag that every analyzer result carries in the source is omitted from the record
embedding, being the same literal string on every return path of an analyzer.
-/

set_option autoImplicit false

namespace NansenPoc

/-- JS division where a zero divisor produces a non-finite float; `none` models
that non-finite result. -/
def jsDiv (a b : Rat) : Option Rat :=
  if b = 0 then none else some (a / b)

/-- JS `||` between a nullable number and a number: `null`, `undefined` and `0`
are falsy, so they select the right operand. -/
def jsOrRat (a : Option Rat) (b : Rat) : Rat :=
  match a with
  | some v => if v = 0 then b else v
  | none => b

/-- JS `Array.prototype.findIndex`: index of the first element satisfying the
predicate, `none` when there is none (`-1` in JS). -/
def jsFindIndex {α : Type} (p : α → Bool) : List α → Option Nat
  | [] => none
  | a :: as => if p a then some 0 else (jsFindIndex p as).map (· + 1)

/-- JS `String.prototype.toLowerCase` (ASCII): per-character lowercasing,
written structurally so that it reduces in the kernel. -/
def jsToLower (s : String) : String :=
  ⟨s.data.map Char.toLower⟩

/-- Analyzer result shape: `success`/`data`/`fallback` as in the source records.
`data = none` and `fallback = none` model absent fields; `fallback = some none`
models an explicit `fallback: null`. -/
structure FunFact (α : Type) where
  success : Bool
  data : Option α
  fallback : Option (Option String)
  deriving Repr, DecidableEq

/-- A token transfer record inside a transaction (`tokens_sent` / `tokens_received`). -/
structure TokenTransfer where
  token_address : String
  price_usd : Option Rat
  value_usd : Option Rat
  deriving Repr, DecidableEq

/-- A transaction as consumed by the ETH-benchmark analyzer. -/
structure Transaction where
  volume_usd : Rat
  tokens_sent : List TokenTransfer
  tokens_received : List TokenTransfer
  deriving Repr, DecidableEq

/-- A balance entry (holding) from the current-balance upstream. -/
structure Holding where
  token_address : String
  chain : String
  value_usd : Rat
  price_usd : Rat
  balance : Rat
  deriving Repr, DecidableEq

/-- An all-time-high record: price and optional date (epoch milliseconds). -/
structure AthData where
  athPrice : Rat
  athDate : Option Int
  deriving Repr, DecidableEq

/-- A label record from the labels upstream. -/
structure LabelRecord where
  label : String
  deriving Repr, DecidableEq

/-- A screened token from the token-screener upstream. -/
structure ScreenedToken where
  token_name : String
  token_symbol : String
  liquidity_usd : Option Rat
  liquidity : Rat
  deriving Repr, DecidableEq

/-- The P&L summary payload (`realized_pnl_usd` may be `undefined`). -/
structure PnlResponse where
  realized_pnl_usd : Option Rat
  realized_pnl_percent : Rat
  deriving Repr, DecidableEq

def ETH_ADDRESS : String := "0xeeeeeeeeeeeeeeeeeeeeeeeeeeeeeeeeeeeeeeee"

def ZKSYNC_ETH_ADDRESS : String := "0x000000000000000000000000000000000000800a"

def ZERO_ADDRESS : String := "0x0000000000000000000000000000000000000000"

/-! ### Price cache

Modelled from the spec: the Price Cache implementation (`src/utils/athCache`)
is not present under `src/` — only its call sites in the Portfolio-ATH analyzer
are.  Spec §4.1: entries are keyed by case-insensitive token address; `set`
inserts or overwrites an entry only when `athPrice > 0`, recording the current
time as `cachedAt`; `get` looks up by case-insensitive address and returns
absent when there is no entry or the entry age exceeds 24 hours, treating stale
entries as cache misses without purging them (lazy expiry).  Time is in epoch
milliseconds; the store is an association list where the most recent entry for
a key shadows older ones. -/

/-- Modelled from the spec: a cache entry, `{tokenAddress (key), athRecord, cachedAt}`. -/
structure CacheEntry where
  athPrice : Rat
  athDate : Option Int
  cachedAt : Int
  deriving Repr, DecidableEq

/-- Modelled from the spec: 24-hour TTL of the price cache, in milliseconds. -/
def CACHE_TTL_MS : Int := 24 * 60 * 60 * 1000

/-- Modelled from the spec: raw store lookup by case-insensitive address (no
TTL check); used to state that stale entries stay in the store. -/
def athCacheLookup (cache : List (String × CacheEntry)) (tokenAddress : String) :
    Option CacheEntry :=
  (cache.find? (fun e => e.1 == jsToLower tokenAddress)).map (·.2)

/-- Modelled from the spec: `set(tokenAddress, athPrice, athDate)` inserts or
overwrites only when `athPrice > 0`, storing the current time as `cachedAt`. -/
def athCacheSet (cache : List (String × CacheEntry)) (now : Int) (tokenAddress : String)
    (athPrice : Rat) (athDate : Option Int) : List (String × CacheEntry) :=
  if 0 < athPrice then
    (jsToLower tokenAddress, ⟨athPrice, athDate, now⟩) :: cache
  else cache

/-- Modelled from the spec: `get(tokenAddress)` returns the cached AthRecord,
or absent when there is no entry or its age exceeds 24 hours (treated as a
miss, not purged). -/
def athCacheGet (cache : List (String × CacheEntry)) (now : Int) (tokenAddress : String) :
    Option AthData :=
  match athCacheLookup cache tokenAddress with
  | none => none
  | some e => if CACHE_TTL_MS < now - e.cachedAt then none else some ⟨e.athPrice, e.athDate⟩

/-! ### Formatting utilities (`formatPercent` and JS `toFixed(2)`) -/

/-- Renders a value of whole cents as a decimal string with two fraction digits. -/
def centsToDecimalString (m : Nat) : String :=
  toString (m / 100) ++ "." ++ (if m % 100 < 10 then "0" ++ toString (m % 100) else toString (m % 100))

/-- JS `Number.prototype.toFixed(2)`: for a negative value the sign is emitted
and the magnitude rounded; the magnitude is rounded to the nearest hundredth,
ties going to the larger candidate. -/
def jsToFixed2 (v : Rat) : String :=
  (if v < 0 then "-" else "") ++ centsToDecimalString (Int.floor (|v| * 100 + 1/2)).toNat

/-- `formatPercent` from the formatting utilities: a `+` sign for non-negative
values, two decimals, trailing `%`. -/
def formatPercent (value : Rat) : String :=
  (if 0 ≤ value then "+" else "") ++ jsToFixed2 value ++ "%"

/-! ### P&L analyzer (`analyzePnl`) -/

/-- Result data of the P&L analyzer. -/
structure PnlData where
  realized_pnl_percent : Rat
  realized_pnl_usd : Rat
  status : String
  timeframe : String
  deriving Repr, DecidableEq

/-- The fixed fallback result of the P&L analyzer. -/
def pnlFallbackResult : FunFact PnlData :=
  ⟨false, none, some (some "Only mist—too little history to read.")⟩

/-- `analyzePnl`, over the outcome of the `getPnlSummary` upstream call
(`Except.error` models a thrown network failure caught by the analyzer,
`none` a missing payload). -/
def analyzePnl (outcome : Except String (Option PnlResponse)) (years : Nat) :
    FunFact PnlData :=
  match outcome with
  | .error _ => pnlFallbackResult
  | .ok none => pnlFallbackResult
  | .ok (some response) =>
    match response.realized_pnl_usd with
    | none => pnlFallbackResult
    | some pnlUsd =>
      let pnlPercent := response.realized_pnl_percent * 100
      if |pnlPercent| < 1/100 ∧ |pnlUsd| < 1 then pnlFallbackResult
      else
        ⟨true,
         some ⟨pnlPercent, pnlUsd,
               if 0 ≤ pnlPercent then "GAIN" else "LOSS",
               if years = 1 then "in the past year"
               else "in the past " ++ toString years ++ " years"⟩,
         none⟩

/-! ### Labels analyzers -/

/-- Substring containment on character lists (`startsWith` helper). -/
def charsStartWith : List Char → List Char → Bool
  | [], _ => true
  | _ :: _, [] => false
  | n :: ns, h :: hs => n == h && charsStartWith ns hs

/-- JS `String.prototype.includes`: does `hay` contain `needle` as a substring? -/
def strContainsSub (hay needle : String) : Bool :=
  go hay.toList needle.toList
where
  go : List Char → List Char → Bool
    | [], needleChars => needleChars.isEmpty
    | h :: hs, needleChars => charsStartWith needleChars (h :: hs) || go hs needleChars

/-- The 14-entry label priority list of the main implementation. -/
def LABEL_PRIORITY : List String :=
  ["Whale", "Smart Money", "Professional Trader", "Quant Trader", "MEV Bot", "Bot",
   "Active Trader", "High Activity", "Dex Trader", "NFT Collector",
   "ENS Domains Collector", "Staker", "DeFi User", "OpenSea User"]

/-- The 35-entry `LABEL_PRIORITY` list of the PRD implementation
(`src/constants/labels.ts`). -/
def LABEL_PRIORITY_PRD : List String :=
  ["Top 100 Leaderboard Trader", "Multiple Memecoin Whales", "Memecoin Whale",
   "Smart Fund", "Token Millionaire",
   "ETH Millionaire", "New Token Specialist", "Memecoin Specialist",
   "Gaming Specialist", "AI Specialist", "DEX Specialist", "RWA Specialist",
   "Smart NFT Trader", "Smart NFT Collector", "Smart NFT Minter",
   "Smart NFT Early Adopter",
   "Top Token Deployer", "Token Deployer", "Emerging Smart Trader",
   "Arbitrum Specialist", "Base Specialist", "Blast Specialist",
   "Optimism Specialist", "Polygon Specialist", "Linea Specialist",
   "Scroll Specialist", "Fantom Specialist", "Sei Specialist",
   "ZKsync Specialist", "BSC Specialist", "Avalanche Specialist",
   "Staker", "OpenSea User", "Blur Trader", "Exit Liquidity"]

/-- Result data of the labels analyzers. -/
structure LabelsData where
  label : String
  deriving Repr, DecidableEq

/-- The fixed fallback result of both labels analyzers (`fallback: null`). -/
def labelsFallbackResult : FunFact LabelsData :=
  ⟨false, none, some none⟩

/-- The priority scan of the main labels analyzer: for each upstream label the
index of the first priority entry contained (case-insensitively) in it is
computed, and the state keeps the lowest such index and its priority label. -/
def labelPriorityScan (labelNames : List String) : Nat × Option String :=
  labelNames.foldl
    (fun st label =>
      match jsFindIndex (fun pl => strContainsSub (jsToLower label) (jsToLower pl)) LABEL_PRIORITY with
      | some i => if i < st.1 then (i, some (LABEL_PRIORITY.getD i "")) else st
      | none => st)
    (LABEL_PRIORITY.length, none)

/-- The main labels analyzer: case-insensitive substring matching against the
14-entry priority list, returning the highest-priority (lowest-index) match. -/
def analyzeLabels (outcome : Except String (Option (List LabelRecord))) :
    FunFact LabelsData :=
  match outcome with
  | .error _ => labelsFallbackResult
  | .ok none => labelsFallbackResult
  | .ok (some response) =>
    if response.length = 0 then labelsFallbackResult
    else
      let labelNames := response.map (·.label)
      match (labelPriorityScan labelNames).2 with
      | none => labelsFallbackResult
      | some highestPriorityLabel => ⟨true, some ⟨highestPriorityLabel⟩, none⟩

/-- The PRD labels analyzer: first entry of the 35-entry `LABEL_PRIORITY_PRD`
list that the upstream label strings contain by exact string equality. -/
def analyzeLabelsPrd (outcome : Except String (Option (List LabelRecord))) :
    FunFact LabelsData :=
  match outcome with
  | .error _ => labelsFallbackResult
  | .ok none => labelsFallbackResult
  | .ok (some response) =>
    if response.length = 0 then labelsFallbackResult
    else
      let apiLabelStrings := response.map (·.label)
      match LABEL_PRIORITY_PRD.find? (fun pl => apiLabelStrings.contains pl) with
      | some priorityLabel => ⟨true, some ⟨priorityLabel⟩, none⟩
      | none => labelsFallbackResult

/-! ### Smart-money analyzer -/

/-- Smart-money labels (exact, case-insensitive matching). -/
def SMART_MONEY_LABELS : List String :=
  ["Smart Money", "Professional Trader", "Quant Trader", "Institutional Investor",
   "Fund", "Whale"]

/-- Result data of the smart-money analyzer. -/
structure SmartMoneyData where
  isSmartMoney : Bool
  labels : List String
  deriving Repr, DecidableEq

/-- The fixed fallback result of the smart-money analyzer (`fallback: null`). -/
def smartMoneyFallbackResult : FunFact SmartMoneyData :=
  ⟨false, none, some none⟩

/-- The smart-money analyzer: collects upstream labels equal (case-insensitively)
to a smart-money label. -/
def analyzeSmartMoney (outcome : Except String (Option (List LabelRecord))) :
    FunFact SmartMoneyData :=
  match outcome with
  | .error _ => smartMoneyFallbackResult
  | .ok none => smartMoneyFallbackResult
  | .ok (some response) =>
    if response.length = 0 then smartMoneyFallbackResult
    else
      let labelNames := response.map (·.label)
      let smartMoneyLabelsFound :=
        labelNames.filter (fun label =>
          SMART_MONEY_LABELS.any (fun smartLabel => jsToLower label == jsToLower smartLabel))
      if smartMoneyLabelsFound.length = 0 then smartMoneyFallbackResult
      else ⟨true, some ⟨true, smartMoneyLabelsFound⟩, none⟩

/-! ### Rugged-projects analyzer -/

/-- A flagged token as reported by the rugged-projects analyzer. -/
structure RuggedTokenDetail where
  name : String
  symbol : String
  liquidity : Rat
  deriving Repr, DecidableEq

/-- Result data of the rugged-projects analyzer. -/
structure RuggedData where
  ruggedCount : Nat
  ruggedTokens : List RuggedTokenDetail
  deriving Repr, DecidableEq

/-- The "clear skies" result the rugged-projects analyzer returns whenever
nothing is flagged or anything fails: `success: true` together with empty data
and the fixed fallback string. -/
def ruggedClearSkiesResult : FunFact RuggedData :=
  ⟨true, some ⟨0, []⟩, some (some "No rugged projects detected—clear skies ahead")⟩

/-- The rugged-projects analyzer, over the outcomes of the current-balance and
token-screener upstream calls. -/
def analyzeRuggedProjects (balanceOutcome : Except String (Option (List Holding)))
    (screenOutcome : Except String (Option (List ScreenedToken))) : FunFact RuggedData :=
  match balanceOutcome with
  | .error _ => ruggedClearSkiesResult
  | .ok none => ruggedClearSkiesResult
  | .ok (some holdings) =>
    if holdings.length = 0 then ruggedClearSkiesResult
    else
      let tokenAddresses :=
        (holdings.filter (fun h =>
          h.token_address != "" && jsToLower h.token_address != ETH_ADDRESS)).map (·.token_address)
      if tokenAddresses.length = 0 then ruggedClearSkiesResult
      else
        match screenOutcome with
        | .error _ => ruggedClearSkiesResult
        | .ok screenData =>
          let ruggedTokens := screenData.getD []
          if ruggedTokens.length = 0 then ruggedClearSkiesResult
          else
            ⟨true,
             some ⟨ruggedTokens.length,
                   ruggedTokens.map (fun t =>
                     ⟨t.token_name, t.token_symbol, jsOrRat t.liquidity_usd t.liquidity⟩)⟩,
             none⟩

/-! ### ETH-benchmark analyzer (`src/prd-implementation/src/features/ethBenchmark.ts`) -/

/-- Result data of the ETH-benchmark analyzer. -/
structure EthBenchmarkData where
  portfolioValue : Rat
  ethEquivalentValue : Rat
  performancePercent : Rat
  status : String
  deriving Repr, DecidableEq

/-- The fixed fallback result of the ETH-benchmark analyzer. -/
def ethBenchmarkFallbackResult : FunFact EthBenchmarkData :=
  ⟨false, none, some (some "No meaningful history yet for young wallets, CEX-only flows excluded")⟩

/-- The loop condition of strategies 1 and 2 of `getEthPriceFromTransaction`:
a transfer whose (truthy) address is the native-ETH sentinel, compared
case-insensitively, carrying a non-null positive `price_usd`. -/
def isPricedNativeTransfer (t : TokenTransfer) : Bool :=
  t.token_address != "" && jsToLower t.token_address == ETH_ADDRESS &&
    (match t.price_usd with
     | some p => decide (0 < p)
     | none => false)

/-- The `for … return` loop of strategies 1 and 2: price of the first
native-ETH transfer with an explicit positive price, `none` when the loop
falls through. -/
def findEthTransferPrice : List TokenTransfer → Option Rat
  | [] => none
  | t :: rest => if isPricedNativeTransfer t then t.price_usd else findEthTransferPrice rest

/-- `getEthPriceFromTransaction`: explicit positive price on a native transfer
in `tokens_sent`, else in `tokens_received`, else an estimate from
`volume_usd` and the first received token's price/value ratio, else `0`. -/
def getEthPriceFromTransaction (tx : Transaction) : Rat :=
  match findEthTransferPrice tx.tokens_sent with
  | some p => p
  | none =>
    match findEthTransferPrice tx.tokens_received with
    | some p => p
    | none =>
      if 0 < tx.volume_usd ∧ tx.tokens_received ≠ [] then
        match tx.tokens_received.head? with
        | some tokenReceived =>
          match tokenReceived.value_usd, tokenReceived.price_usd with
          | some v, some p =>
            if 0 < v ∧ 0 < p then p * (tx.volume_usd / v) else 0
          | some _, none => 0
          | none, _ => 0
        | none => 0
      else 0

/-- A "buy" transaction: non-empty received-token list and positive volume. -/
def buyFilter (tx : Transaction) : Bool :=
  !tx.tokens_received.isEmpty && decide (0 < tx.volume_usd)

/-- Accumulator of the step-3 loop over buy transactions. -/
structure BuyAcc where
  totalUsdSpent : Rat
  totalEthEquivalent : Rat
  pricesFound : Nat
  deriving Repr, DecidableEq

/-- One iteration of the step-3 loop: `usdSpent` always accumulates; the
ETH equivalent and the found-price count only when a positive ETH price was
derived from the transaction. -/
def stepBuy (acc : BuyAcc) (tx : Transaction) : BuyAcc :=
  let usdSpent := tx.volume_usd
  let ethPrice := getEthPriceFromTransaction tx
  if 0 < ethPrice then
    ⟨acc.totalUsdSpent + usdSpent, acc.totalEthEquivalent + usdSpent / ethPrice,
     acc.pricesFound + 1⟩
  else
    ⟨acc.totalUsdSpent + usdSpent, acc.totalEthEquivalent, acc.pricesFound⟩

/-- The step-3 loop of `analyzeEthBenchmark` over the buy transactions. -/
def accumulateBuys (buys : List Transaction) : BuyAcc :=
  buys.foldl stepBuy ⟨0, 0, 0⟩

/-- The filter of `extractUniqueTokens`: truthy address, not (case-sensitively)
the native sentinel, not (case-insensitively) the zero address. -/
def shouldCollectToken (t : TokenTransfer) : Bool :=
  t.token_address != "" && t.token_address != ETH_ADDRESS &&
    jsToLower t.token_address != ZERO_ADDRESS

/-- `Set.add` followed by `Array.from`: JS sets keep insertion order and drop
duplicates. -/
def insertUnique (l : List String) (s : String) : List String :=
  if l.contains s then l else l ++ [s]

/-- `extractUniqueTokens`: the deduplicated, lowercased received-token
addresses across the given transactions, in insertion order. -/
def extractUniqueTokens (transactions : List Transaction) : List String :=
  transactions.foldl
    (fun acc tx =>
      tx.tokens_received.foldl
        (fun acc2 t => if shouldCollectToken t then insertUnique acc2 (jsToLower t.token_address) else acc2)
        acc)
    []

/-- The balance-scanning loop of `getCurrentEthPriceFromNansen`: price of the
first native-ETH balance entry with a positive price, else `0`. -/
def findNativeBalancePrice : List Holding → Rat
  | [] => 0
  | h :: rest =>
    if h.token_address != "" && jsToLower h.token_address == ETH_ADDRESS &&
        decide (0 < h.price_usd) then
      h.price_usd
    else findNativeBalancePrice rest

/-- `getCurrentEthPriceFromNansen`: scans the wallet's ethereum-chain balance
entries for a native entry with positive price; any upstream failure is caught
inside the helper and converted to `0`. -/
def getCurrentEthPriceFromNansen (outcome : Except String (Option (List Holding))) : Rat :=
  match outcome with
  | .error _ => 0
  | .ok none => 0
  | .ok (some balances) => findNativeBalancePrice balances

/-- Sum of `value_usd` over a holding list (`for … += value_usd` loop). -/
def sumValues (holdings : List Holding) : Rat :=
  holdings.foldl (fun acc h => acc + h.value_usd) 0

/-- `calculateCurrentPortfolioValue`: sums current `value_usd` of balance
entries whose lowercased address is among the purchased tokens; any upstream
failure is caught inside the helper and converted to `0`. -/
def calculateCurrentPortfolioValue (outcome : Except String (Option (List Holding)))
    (tokenAddresses : List String) : Rat :=
  match outcome with
  | .error _ => 0
  | .ok none => 0
  | .ok (some balances) =>
    let purchasedTokenAddressesSet := tokenAddresses.map (fun a => jsToLower a)
    sumValues (balances.filter (fun b =>
      purchasedTokenAddressesSet.contains (jsToLower b.token_address)))

/-- Steps 3–7 of `analyzeEthBenchmark`, from the non-empty buy list on:
price-signal check, unique purchased tokens, current ETH price, equivalent and
actual portfolio values, performance. -/
def ethBenchmarkFromBuys (buyTransactions : List Transaction)
    (ethBalanceOutcome allBalanceOutcome : Except String (Option (List Holding))) :
    FunFact EthBenchmarkData :=
  let acc := accumulateBuys buyTransactions
  if acc.totalEthEquivalent = 0 ∨
      (acc.pricesFound : Rat) < (buyTransactions.length : Rat) * (0.5 : Rat) then
    ethBenchmarkFallbackResult
  else
    let purchasedTokens := extractUniqueTokens buyTransactions
    let currentEthPrice := getCurrentEthPriceFromNansen ethBalanceOutcome
    if currentEthPrice = 0 then ethBenchmarkFallbackResult
    else
      let ethEquivalentValue := acc.totalEthEquivalent * currentEthPrice
      let portfolioValue := calculateCurrentPortfolioValue allBalanceOutcome purchasedTokens
      let performancePercent := ((portfolioValue - ethEquivalentValue) / ethEquivalentValue) * 100
      ⟨true,
       some ⟨portfolioValue, ethEquivalentValue, performancePercent,
             if 0 ≤ performancePercent then "OUTPERFORMED" else "UNDERPERFORMED"⟩,
       none⟩

/-- `analyzeEthBenchmark`, over the outcomes of the three upstream calls: the
transaction history, the ethereum-chain balance (for the current ETH price) and
the all-chain balance (for the surviving portfolio value).  A thrown failure of
the transaction fetch reaches the analyzer's catch; the two balance fetches are
guarded inside their helpers. -/
def analyzeEthBenchmark (txOutcome : Except String (Option (List Transaction)))
    (ethBalanceOutcome allBalanceOutcome : Except String (Option (List Holding))) :
    FunFact EthBenchmarkData :=
  match txOutcome with
  | .error _ => ethBenchmarkFallbackResult
  | .ok none => ethBenchmarkFallbackResult
  | .ok (some transactions) =>
    if transactions.length = 0 then ethBenchmarkFallbackResult
    else
      let buyTransactions := transactions.filter buyFilter
      if buyTransactions.length = 0 then ethBenchmarkFallbackResult
      else ethBenchmarkFromBuys buyTransactions ethBalanceOutcome allBalanceOutcome

/-! ### Portfolio-ATH analyzer -/

/-- Result data of the Portfolio-ATH analyzer.  The potential gain carries the
JS division through `jsDiv`, so a (never reached) zero `currentValue` would
show up as `none`. -/
structure PortfolioAthData where
  currentValue : Rat
  athValue : Rat
  potentialGainPercent : Option Rat
  deriving Repr, DecidableEq

/-- The fixed fallback result of the Portfolio-ATH analyzer. -/
def portfolioAthFallbackResult : FunFact PortfolioAthData :=
  ⟨false, none, some (some "No meaningful history yet for young/empty wallets")⟩

/-- The step-3 filter: truthy address, not the native-ETH sentinel, not the
ZkSync-ETH sentinel (both case-insensitively), truthy chain, positive value. -/
def isTokenHolding (h : Holding) : Bool :=
  h.token_address != "" &&
    jsToLower h.token_address != ETH_ADDRESS &&
    jsToLower h.token_address != ZKSYNC_ETH_ADDRESS &&
    h.chain != "" &&
    decide (0 < h.value_usd)

/-- The step-4 loop: per holding, `tokenAmount * athPrice` when an AthRecord
with positive price is known, else the holding's current `value_usd`; also
counts the holdings with a genuine ATH hit. -/
def athFold (athPrices : String → Option AthData) (holdings : List Holding) : Rat × Nat :=
  holdings.foldl
    (fun acc h =>
      match athPrices (jsToLower h.token_address) with
      | some athData =>
        if 0 < athData.athPrice then (acc.1 + h.balance * athData.athPrice, acc.2 + 1)
        else (acc.1 + h.value_usd, acc.2)
      | none => (acc.1 + h.value_usd, acc.2))
    (0, 0)

/-- The step-5 division of `analyzePortfolioATH`, exactly as written in the
source: `((athValue - currentValue) / currentValue) * 100`, with the JS
division modelled by `jsDiv` — there is no zero test around it in the code. -/
def potentialGainStep (athValue currentValue : Rat) : Option Rat :=
  (jsDiv (athValue - currentValue) currentValue).map (· * 100)

/-- The pure core of `analyzePortfolioATH` (steps 2–5), over the fetched
balance payload and the ATH-price map (keyed by lowercased address) assembled
from cache plus batch fetch. -/
def analyzePortfolioATHCore (balanceData : Option (List Holding))
    (athPrices : String → Option AthData) : FunFact PortfolioAthData :=
  match balanceData with
  | none => portfolioAthFallbackResult
  | some holdings =>
    if holdings.length = 0 then portfolioAthFallbackResult
    else
      let tokenHoldings := holdings.filter isTokenHolding
      if tokenHoldings.length = 0 then portfolioAthFallbackResult
      else
        let currentValue := sumValues tokenHoldings
        let folded := athFold athPrices tokenHoldings
        if folded.2 = 0 then portfolioAthFallbackResult
        else
          ⟨true,
           some ⟨currentValue, folded.1, potentialGainStep folded.1 currentValue⟩,
           none⟩

/-- `analyzePortfolioATH`, over the outcomes of the balance fetch and the ATH
price lookup (cache plus batch fetch); a thrown failure of either reaches the
analyzer's catch and becomes the fixed fallback. -/
def analyzePortfolioATH (balanceOutcome : Except String (Option (List Holding)))
    (athOutcome : Except String (String → Option AthData)) : FunFact PortfolioAthData :=
  match balanceOutcome with
  | .error _ => portfolioAthFallbackResult
  | .ok balanceData =>
    match athOutcome with
    | .error _ => portfolioAthFallbackResult
    | .ok athPrices => analyzePortfolioATHCore balanceData athPrices

/-- The tagged-result invariant: exactly one of `data`/`fallback` is
meaningful for the result's tag. -/
def exclusiveTag {α : Type} (r : FunFact α) : Bool :=
  if r.success then r.data.isSome && r.fallback.isNone
  else r.data.isNone && r.fallback.isSome

/-! ### Helper lemmas -/

theorem foldl_add_value (l : List Holding) (init : Rat) :
    l.foldl (fun acc h => acc + h.value_usd) init
      = init + (l.map (fun h => h.value_usd)).sum := by
  induction l generalizing init with
  | nil => simp
  | cons x xs ih => simp [List.foldl_cons, ih, add_assoc]

theorem sumValues_eq (l : List Holding) :
    sumValues l = (l.map (fun h => h.value_usd)).sum := by
  simpa using foldl_add_value l 0

theorem isTokenHolding_value_pos {h : Holding} (hh : isTokenHolding h = true) :
    0 < h.value_usd := by
  simp only [isTokenHolding, Bool.and_eq_true, decide_eq_true_eq] at hh
  exact hh.2

theorem sumValues_filter_pos (holdings : List Holding)
    (hne : holdings.filter isTokenHolding ≠ []) :
    0 < sumValues (holdings.filter isTokenHolding) := by
  rw [sumValues_eq]
  apply List.sum_pos
  · intro x hx
    simp only [List.mem_map] at hx
    obtain ⟨h, hmem, rfl⟩ := hx
    exact isTokenHolding_value_pos (List.mem_filter.mp hmem).2
  · simp only [ne_eq, List.map_eq_nil_iff]
    exact hne

theorem findEthTransferPrice_eq_find (ts : List TokenTransfer) :
    findEthTransferPrice ts
      = (ts.find? isPricedNativeTransfer).bind (fun t => t.price_usd) := by
  induction ts with
  | nil => rfl
  | cons t rest ih =>
    by_cases hp : isPricedNativeTransfer t = true
    · simp [findEthTransferPrice, List.find?_cons_of_pos, hp]
    · simp only [Bool.not_eq_true] at hp
      simp [findEthTransferPrice, List.find?_cons_of_neg, hp, ih]

theorem foldl_stepBuy_spec (buys : List Transaction) (acc : BuyAcc) :
    (buys.foldl stepBuy acc).totalUsdSpent
        = acc.totalUsdSpent + (buys.map (fun b => b.volume_usd)).sum
  ∧ (buys.foldl stepBuy acc).totalEthEquivalent
        = acc.totalEthEquivalent
            + ((buys.filter (fun b => decide (0 < getEthPriceFromTransaction b))).map
                (fun b => b.volume_usd / getEthPriceFromTransaction b)).sum
  ∧ (buys.foldl stepBuy acc).pricesFound
        = acc.pricesFound
            + (buys.filter (fun b => decide (0 < getEthPriceFromTransaction b))).length := by
  induction buys generalizing acc with
  | nil => simp
  | cons b rest ih =>
    by_cases hp : 0 < getEthPriceFromTransaction b
    · simpa [stepBuy, hp, List.filter_cons, add_assoc, add_comm, add_left_comm]
        using ih (stepBuy acc b)
    · simpa [stepBuy, hp, List.filter_cons, add_assoc, add_comm, add_left_comm]
        using ih (stepBuy acc b)

theorem jsFindIndex_eq_none {α : Type} (p : α → Bool) (l : List α)
    (h : ∀ x ∈ l, p x = false) : jsFindIndex p l = none := by
  induction l with
  | nil => rfl
  | cons x xs ih =>
    simp only [jsFindIndex, h x (List.mem_cons_self x xs), Bool.false_eq_true, if_false]
    rw [ih (fun y hy => h y (List.mem_cons_of_mem x hy))]
    rfl

theorem find?_eq_none_of_all_neg {α : Type} (p : α → Bool) (l : List α)
    (h : ∀ x ∈ l, p x = false) : l.find? p = none := by
  induction l with
  | nil => rfl
  | cons x xs ih =>
    rw [List.find?_cons_of_neg _ (by simp [h x (List.mem_cons_self x xs)])]
    exact ih (fun y hy => h y (List.mem_cons_of_mem x hy))

theorem labelPriorityScan_none (labelNames : List String)
    (h : ∀ l ∈ labelNames,
      jsFindIndex (fun pl => strContainsSub (jsToLower l) (jsToLower pl)) LABEL_PRIORITY = none) :
    (labelPriorityScan labelNames).2 = none := by
  have key : ∀ (st : Nat × Option String),
      labelNames.foldl
        (fun st label =>
          match jsFindIndex (fun pl => strContainsSub (jsToLower label) (jsToLower pl)) LABEL_PRIORITY with
          | some i => if i < st.1 then (i, some (LABEL_PRIORITY.getD i "")) else st
          | none => st)
        st = st := by
    induction labelNames with
    | nil => intro st; rfl
    | cons x xs ih =>
      intro st
      simp only [List.foldl_cons, h x (List.mem_cons_self x xs)]
      exact ih (fun y hy => h y (List.mem_cons_of_mem x hy)) st
  exact congrArg Prod.snd (key (LABEL_PRIORITY.length, none))

theorem analyzePnl_shape (o : Except String (Option PnlResponse)) (years : Nat) :
    analyzePnl o years = pnlFallbackResult
      ∨ ∃ d, analyzePnl o years = ⟨true, some d, none⟩ := by
  unfold analyzePnl
  rcases o with e | r
  · exact Or.inl rfl
  · rcases r with _ | ⟨usdField, pct⟩
    · exact Or.inl rfl
    · rcases usdField with _ | usd
      · exact Or.inl rfl
      · dsimp only
        split
        · exact Or.inl rfl
        · exact Or.inr ⟨_, rfl⟩

theorem analyzeLabels_shape (o : Except String (Option (List LabelRecord))) :
    analyzeLabels o = labelsFallbackResult
      ∨ ∃ d, analyzeLabels o = ⟨true, some d, none⟩ := by
  unfold analyzeLabels
  rcases o with e | r
  · exact Or.inl rfl
  · rcases r with _ | resp
    · exact Or.inl rfl
    · dsimp only
      split
      · exact Or.inl rfl
      · split
        · exact Or.inl rfl
        · exact Or.inr ⟨_, rfl⟩

theorem analyzeLabelsPrd_shape (o : Except String (Option (List LabelRecord))) :
    analyzeLabelsPrd o = labelsFallbackResult
      ∨ ∃ d, analyzeLabelsPrd o = ⟨true, some d, none⟩ := by
  unfold analyzeLabelsPrd
  rcases o with e | r
  · exact Or.inl rfl
  · rcases r with _ | resp
    · exact Or.inl rfl
    · dsimp only
      split
      · exact Or.inl rfl
      · split
        · exact Or.inr ⟨_, rfl⟩
        · exact Or.inl rfl

theorem analyzeSmartMoney_shape (o : Except String (Option (List LabelRecord))) :
    analyzeSmartMoney o = smartMoneyFallbackResult
      ∨ ∃ d, analyzeSmartMoney o = ⟨true, some d, none⟩ := by
  unfold analyzeSmartMoney
  rcases o with e | r
  · exact Or.inl rfl
  · rcases r with _ | resp
    · exact Or.inl rfl
    · dsimp only
      split
      · exact Or.inl rfl
      · split
        · exact Or.inl rfl
        · exact Or.inr ⟨_, rfl⟩

theorem analyzeRuggedProjects_shape (b : Except String (Option (List Holding)))
    (s : Except String (Option (List ScreenedToken))) :
    analyzeRuggedProjects b s = ruggedClearSkiesResult
      ∨ ∃ d, analyzeRuggedProjects b s = ⟨true, some d, none⟩ := by
  unfold analyzeRuggedProjects
  rcases b with e | r
  · exact Or.inl rfl
  · rcases r with _ | holdings
    · exact Or.inl rfl
    · dsimp only
      split
      · exact Or.inl rfl
      · split
        · exact Or.inl rfl
        · rcases s with e2 | sd
          · exact Or.inl rfl
          · dsimp only
            split
            · exact Or.inl rfl
            · exact Or.inr ⟨_, rfl⟩

theorem ethBenchmarkFromBuys_shape (buys : List Transaction)
    (ethBal allBal : Except String (Option (List Holding))) :
    ethBenchmarkFromBuys buys ethBal allBal = ethBenchmarkFallbackResult
      ∨ ∃ d, ethBenchmarkFromBuys buys ethBal allBal = ⟨true, some d, none⟩ := by
  unfold ethBenchmarkFromBuys
  dsimp only
  split
  · exact Or.inl rfl
  · split
    · exact Or.inl rfl
    · exact Or.inr ⟨_, rfl⟩

theorem analyzeEthBenchmark_shape (t : Except String (Option (List Transaction)))
    (ethBal allBal : Except String (Option (List Holding))) :
    analyzeEthBenchmark t ethBal allBal = ethBenchmarkFallbackResult
      ∨ ∃ d, analyzeEthBenchmark t ethBal allBal = ⟨true, some d, none⟩ := by
  unfold analyzeEthBenchmark
  rcases t with e | r
  · exact Or.inl rfl
  · rcases r with _ | txs
    · exact Or.inl rfl
    · dsimp only
      split
      · exact Or.inl rfl
      · split
        · exact Or.inl rfl
        · exact ethBenchmarkFromBuys_shape _ _ _

theorem analyzePortfolioATHCore_shape (bd : Option (List Holding))
    (ath : String → Option AthData) :
    analyzePortfolioATHCore bd ath = portfolioAthFallbackResult
      ∨ ∃ d, analyzePortfolioATHCore bd ath = ⟨true, some d, none⟩ := by
  unfold analyzePortfolioATHCore
  rcases bd with _ | holdings
  · exact Or.inl rfl
  · dsimp only
    split
    · exact Or.inl rfl
    · split
      · exact Or.inl rfl
      · split
        · exact Or.inl rfl
        · exact Or.inr ⟨_, rfl⟩

theorem analyzePortfolioATH_shape (b : Except String (Option (List Holding)))
    (a : Except String (String → Option AthData)) :
    analyzePortfolioATH b a = portfolioAthFallbackResult
      ∨ ∃ d, analyzePortfolioATH b a = ⟨true, some d, none⟩ := by
  unfold analyzePortfolioATH
  rcases b with e | bd
  · exact Or.inl rfl
  · rcases a with e2 | ath
    · exact Or.inl rfl
    · exact analyzePortfolioATHCore_shape _ _

/-! ### Claim theorems -/

/-- Holdings of the Portfolio-ATH scenario: token A worth $100 (amount 10),
token B worth $50 (amount 5). -/
def c1holdingA : Holding := ⟨"0xa", "ethereum", 100, 10, 10⟩

def c1holdingB : Holding := ⟨"0xb", "ethereum", 50, 10, 5⟩

/-- ATH prices of the Portfolio-ATH scenario: A has ATH $20, B is unknown. -/
def c1athPrices : String → Option AthData :=
  fun s => if s = "0xa" then some ⟨20, some 0⟩ else none

/-- C1: for holdings [{value:100, amount:10, token:A},{value:50, amount:5,
token:B}] with ATH prices {A:20, B:unknown}, `analyzePortfolioATH` computes
`currentValue = 150`, `athValue = 10*20 + 50 = 250` (B, having no
positive-ATH record, contributes its current `valueUsd`), and
`potentialGainPercent = (250-150)/150*100 = 200/3 ≈ 66.67` (rendered
`66.67` at two decimals). -/
theorem C1_portfolio_ath_scenario :
    analyzePortfolioATH (.ok (some [c1holdingA, c1holdingB])) (.ok c1athPrices)
        = ⟨true, some ⟨150, 250, some (200/3)⟩, none⟩
    ∧ jsToFixed2 (200/3) = "66.67" := by
  with_unfolding_all decide

/-- C4 (amended): `currentValue == 0` is unreachable at the division step —
every holding surviving the step-3 filter has positive `value_usd`, so their
sum is positive and every success result carries a finite (`some`) gain — but
the implementation does not guard the division itself: it is performed
unconditionally (see the counterexample), relying on the filter invariant. -/
theorem C4_division_guard_amended (holdings : List Holding)
    (balanceData : Option (List Holding)) (athPrices : String → Option AthData) :
    (holdings.filter isTokenHolding = [] ∨ 0 < sumValues (holdings.filter isTokenHolding))
  ∧ ((analyzePortfolioATHCore balanceData athPrices).data.all
      (fun d => d.potentialGainPercent.isSome)) = true := by
  constructor
  · by_cases hf : holdings.filter isTokenHolding = []
    · exact Or.inl hf
    · exact Or.inr (sumValues_filter_pos holdings hf)
  · cases balanceData with
    | none => rfl
    | some hs =>
      unfold analyzePortfolioATHCore
      dsimp only
      split
      · rfl
      split
      · rfl
      next hfil =>
        split
        · rfl
        have hne : hs.filter isTokenHolding ≠ [] := by
          intro h0
          exact hfil (by rw [h0]; rfl)
        have hpos := sumValues_filter_pos hs hne
        simp [Option.all, potentialGainStep, jsDiv, hpos.ne.symm]

/-- C4 (counterexample): the raw division step of the source,
`((athValue - currentValue) / currentValue) * 100`, has no zero guard: at
`currentValue = 0` it yields the non-finite JS value (modelled `none`)
instead of some defensively chosen finite result, refuting "the
implementation guards the division against divide-by-zero defensively". -/
theorem C4_division_guard_counterexample : potentialGainStep 5 0 = none := by
  with_unfolding_all decide

/-- C5: for every positive ATH price, a Price Cache `get` immediately after
`set` returns the just-set record, with the lookup case-insensitive in the
address; once more than 24 hours have elapsed the same `get` returns absent
while the raw store still holds the (stale, unpurged) entry. -/
theorem C5_price_cache_roundtrip (cache : List (String × CacheEntry)) (t0 t1 : Int)
    (a b : String) (p : Rat) (d : Option Int)
    (hp : 0 < p) (hcase : jsToLower b = jsToLower a) :
    athCacheGet (athCacheSet cache t0 a p d) t0 b = some ⟨p, d⟩
  ∧ (CACHE_TTL_MS < t1 - t0 →
      athCacheGet (athCacheSet cache t0 a p d) t1 b = none
      ∧ athCacheLookup (athCacheSet cache t0 a p d) b = some ⟨p, d, t0⟩) := by
  have hset : athCacheSet cache t0 a p d = (jsToLower a, ⟨p, d, t0⟩) :: cache := by
    unfold athCacheSet
    rw [if_pos hp]
  have hlook : athCacheLookup (athCacheSet cache t0 a p d) b = some ⟨p, d, t0⟩ := by
    rw [hset]
    unfold athCacheLookup
    rw [List.find?_cons_of_pos _ (by simp [hcase])]
    rfl
  constructor
  · unfold athCacheGet
    rw [hlook]
    dsimp only
    have hfresh : ¬ (CACHE_TTL_MS < t0 - t0) := by
      rw [sub_self]
      decide
    rw [if_neg hfresh]
  · intro hstale
    refine ⟨?_, hlook⟩
    unfold athCacheGet
    rw [hlook]
    dsimp only
    rw [if_pos hstale]

/-- C5 (witness): concrete round trip at address `0xAbC` (looked up as
`0xabc`), price 2, set at time 0, stale read at 24h + 1ms. -/
theorem C5_price_cache_roundtrip_witness :
    athCacheGet (athCacheSet [] 0 "0xAbC" 2 (some 5)) 0 "0xabc" = some ⟨2, some 5⟩
  ∧ athCacheGet (athCacheSet [] 0 "0xAbC" 2 (some 5)) 86400001 "0xabc" = none
  ∧ athCacheLookup (athCacheSet [] 0 "0xAbC" 2 (some 5)) "0xabc" = some ⟨2, some 5, 0⟩ := by
  have h := C5_price_cache_roundtrip [] 0 86400001 "0xAbC" "0xabc" 2 (some 5)
    (by with_unfolding_all decide) (by decide)
  exact ⟨h.1, (h.2 (by decide)).1, (h.2 (by decide)).2⟩

/-- A buy transaction whose received token is the native sentinel written in
mixed case (as in an EIP-55 checksummed address). -/
def c8tx : Transaction :=
  ⟨50, [], [⟨"0xEeeeeeeeeeeeeeeeeeeeeeeeeeeeeeeeeeeeeeee", none, none⟩]⟩

/-- C8 (code bug evaluation): `extractUniqueTokens` compares the native
sentinel case-sensitively (`!== ETH_ADDRESS`, unlike the adjacent lowercased
zero-address check), so a mixed-case sentinel in the input slips through and
the returned set contains the (lowercased) native sentinel address, contrary
to the claim and the spec. -/
theorem C8_extract_unique_tokens_sentinel :
    extractUniqueTokens [c8tx] = [ETH_ADDRESS]
  ∧ ETH_ADDRESS ∈ extractUniqueTokens [c8tx] := by
  decide

/-- Scenario buy 1: $200 volume, native ETH sent with explicit price $2,000. -/
def c2tx1 : Transaction :=
  ⟨200, [⟨ETH_ADDRESS, some 2000, some 200⟩], [⟨"0xabc", none, none⟩]⟩

/-- Scenario buy 2: $100 volume, no derivable ETH price. -/
def c2tx2 : Transaction := ⟨100, [], [⟨"0xdef", none, none⟩]⟩

/-- An ethereum-chain balance entry giving a current ETH price of $2,500. -/
def c2ethHolding : Holding := ⟨ETH_ADDRESS, "ethereum", 0, 2500, 0⟩

/-- C2: the 50% price-derivation threshold is inclusive.  Generally, once the
buy list is non-empty and a positive current ETH price is available, the
analyzer returns its fallback exactly when the total ETH equivalent is zero or
fewer than 50% of the buys yielded a usable price (`pricesFound <
buys.length * 0.5`, so exactly half passes).  Concretely, with two buys of
which exactly one (price $2,000, volume $200, i.e. 0.1 ETH) yields a price,
the pipeline proceeds and, at a current ETH price of $2,500, computes
`ethEquivalentValue = 0.1 * 2500 = 250`. -/
theorem C2_eth_benchmark_threshold :
    (∀ (txs : List Transaction) (ethBal allBal : Except String (Option (List Holding))),
        txs.filter buyFilter ≠ [] →
        0 < getCurrentEthPriceFromNansen ethBal →
        (analyzeEthBenchmark (.ok (some txs)) ethBal allBal = ethBenchmarkFallbackResult
          ↔ (accumulateBuys (txs.filter buyFilter)).totalEthEquivalent = 0
             ∨ ((accumulateBuys (txs.filter buyFilter)).pricesFound : Rat)
                 < ((txs.filter buyFilter).length : Rat) * (0.5 : Rat)))
  ∧ analyzeEthBenchmark (.ok (some [c2tx1, c2tx2])) (.ok (some [c2ethHolding])) (.ok (some []))
      = ⟨true, some ⟨0, 250, -100, "UNDERPERFORMED"⟩, none⟩ := by
  constructor
  · intro txs ethBal allBal hbuys hprice
    have htxs : ¬ (txs.length = 0) := by
      intro h
      rw [List.length_eq_zero] at h
      subst h
      exact hbuys rfl
    have hbl : ¬ ((txs.filter buyFilter).length = 0) := by
      intro h
      exact hbuys (List.length_eq_zero.mp h)
    unfold analyzeEthBenchmark
    dsimp only
    rw [if_neg htxs, if_neg hbl]
    unfold ethBenchmarkFromBuys
    dsimp only
    by_cases hC : (accumulateBuys (txs.filter buyFilter)).totalEthEquivalent = 0
        ∨ ((accumulateBuys (txs.filter buyFilter)).pricesFound : Rat)
            < ((txs.filter buyFilter).length : Rat) * (0.5 : Rat)
    · rw [if_pos hC]
      simp [hC]
    · rw [if_neg hC, if_neg hprice.ne.symm]
      simp [hC, ethBenchmarkFallbackResult]
  · with_unfolding_all decide

/-- C2 (witness): the concrete scenario satisfies both hypotheses of the
general part and, by it, does not fall back. -/
theorem C2_eth_benchmark_threshold_witness :
    analyzeEthBenchmark (.ok (some [c2tx1, c2tx2])) (.ok (some [c2ethHolding])) (.ok (some []))
      ≠ ethBenchmarkFallbackResult := by
  have h := C2_eth_benchmark_threshold.1 [c2tx1, c2tx2] (.ok (some [c2ethHolding]))
    (.ok (some [])) (by with_unfolding_all decide) (by with_unfolding_all decide)
  simp only [ne_eq, h]
  with_unfolding_all decide

/-- C3: for every buy, the implied ETH price is derived preferring an explicit
positive price on a native transfer in the sent list, then in the received
list, then the estimate `price_usd * (volume_usd / value_usd)` from the first
received token, else 0; and over any buy list, `usdSpent` accumulates for
every buy while the ETH equivalent (and found-price count) accumulates only
for buys with a derived positive price. -/
theorem C3_eth_price_preference (tx : Transaction) (buys : List Transaction) :
    (getEthPriceFromTransaction tx
        = match (tx.tokens_sent.find? isPricedNativeTransfer).bind (fun t => t.price_usd) with
          | some p => p
          | none =>
            match (tx.tokens_received.find? isPricedNativeTransfer).bind (fun t => t.price_usd) with
            | some p => p
            | none =>
              match tx.tokens_received.head? with
              | some t =>
                match t.price_usd, t.value_usd with
                | some p, some v =>
                  if 0 < p ∧ 0 < v ∧ 0 < tx.volume_usd then p * (tx.volume_usd / v) else 0
                | some _, none => 0
                | none, _ => 0
              | none => 0)
  ∧ (accumulateBuys buys).totalUsdSpent = (buys.map (fun b => b.volume_usd)).sum
  ∧ (accumulateBuys buys).totalEthEquivalent
      = ((buys.filter (fun b => decide (0 < getEthPriceFromTransaction b))).map
          (fun b => b.volume_usd / getEthPriceFromTransaction b)).sum
  ∧ (accumulateBuys buys).pricesFound
      = (buys.filter (fun b => decide (0 < getEthPriceFromTransaction b))).length := by
  obtain ⟨hu, he, hn⟩ := foldl_stepBuy_spec buys ⟨0, 0, 0⟩
  refine ⟨?_, ?_, ?_, ?_⟩
  · obtain ⟨vol, sent, received⟩ := tx
    unfold getEthPriceFromTransaction
    dsimp only
    rw [findEthTransferPrice_eq_find, findEthTransferPrice_eq_find]
    rcases hA : (sent.find? isPricedNativeTransfer).bind (fun t => t.price_usd) with _ | p
    · simp only [hA]
      rcases hB : (received.find? isPricedNativeTransfer).bind (fun t => t.price_usd) with _ | q
      · simp only [hB]
        rcases received with _ | ⟨t0, rest⟩
        · simp
        · simp only [List.head?, List.cons_ne_nil, ne_eq, not_false_iff, and_true]
          rcases hv : t0.value_usd with _ | v <;> rcases hp : t0.price_usd with _ | pr <;>
            simp only [hv, hp]
          · simp
          · simp
          · simp
          · by_cases h1 : 0 < vol <;> by_cases h2 : 0 < v <;> by_cases h3 : 0 < pr <;>
              simp [h1, h2, h3]
      · simp only [hB]
    · simp only [hA]
  · simpa using hu
  · simpa using he
  · simpa using hn

/-- C6 (counterexample): on an empty balance payload the rugged-projects
analyzer returns `success: true` carrying BOTH a data record and its fallback
string, refuting "exactly one of data/fallback is meaningful — never both". -/
theorem C6_tagged_result_counterexample :
    (analyzeRuggedProjects (.ok none) (.ok none)).success = true
  ∧ (analyzeRuggedProjects (.ok none) (.ok none)).data.isSome = true
  ∧ (analyzeRuggedProjects (.ok none) (.ok none)).fallback.isSome = true := by
  decide

/-- C6 (amended): the tagged-result invariant holds for the P&L, labels (both
implementations), smart-money, ETH-benchmark and Portfolio-ATH analyzers on
every upstream outcome; the rugged-projects analyzer instead always returns
`success: true` with data present, additionally carrying its fallback string
when nothing is flagged or anything fails. -/
theorem C6_tagged_result_amended :
    (∀ (o : Except String (Option PnlResponse)) (years : Nat),
        exclusiveTag (analyzePnl o years) = true)
  ∧ (∀ o : Except String (Option (List LabelRecord)), exclusiveTag (analyzeLabels o) = true)
  ∧ (∀ o : Except String (Option (List LabelRecord)), exclusiveTag (analyzeLabelsPrd o) = true)
  ∧ (∀ o : Except String (Option (List LabelRecord)), exclusiveTag (analyzeSmartMoney o) = true)
  ∧ (∀ (t : Except String (Option (List Transaction)))
        (ethBal allBal : Except String (Option (List Holding))),
        exclusiveTag (analyzeEthBenchmark t ethBal allBal) = true)
  ∧ (∀ (b : Except String (Option (List Holding)))
        (a : Except String (String → Option AthData)),
        exclusiveTag (analyzePortfolioATH b a) = true)
  ∧ (∀ (b : Except String (Option (List Holding)))
        (s : Except String (Option (List ScreenedToken))),
        (analyzeRuggedProjects b s).success = true
        ∧ (analyzeRuggedProjects b s).data.isSome = true) := by
  refine ⟨?_, ?_, ?_, ?_, ?_, ?_, ?_⟩
  · intro o years
    rcases analyzePnl_shape o years with h | ⟨d, h⟩ <;> rw [h] <;> rfl
  · intro o
    rcases analyzeLabels_shape o with h | ⟨d, h⟩ <;> rw [h] <;> rfl
  · intro o
    rcases analyzeLabelsPrd_shape o with h | ⟨d, h⟩ <;> rw [h] <;> rfl
  · intro o
    rcases analyzeSmartMoney_shape o with h | ⟨d, h⟩ <;> rw [h] <;> rfl
  · intro t ethBal allBal
    rcases analyzeEthBenchmark_shape t ethBal allBal with h | ⟨d, h⟩ <;> rw [h] <;> rfl
  · intro b a
    rcases analyzePortfolioATH_shape b a with h | ⟨d, h⟩ <;> rw [h] <;> rfl
  · intro b s
    rcases analyzeRuggedProjects_shape b s with h | ⟨d, h⟩ <;> rw [h] <;> exact ⟨rfl, rfl⟩

/-- A buy with a derivable ETH price ($2,000) for the C7 counterexample. -/
def c7tx : Transaction :=
  ⟨100, [⟨ETH_ADDRESS, some 2000, some 100⟩], [⟨"0xaaa", none, none⟩]⟩

/-- An ethereum-chain balance entry giving a current ETH price of $2,000. -/
def c7ethHolding : Holding := ⟨ETH_ADDRESS, "ethereum", 0, 2000, 0⟩

/-- C7 (counterexample): when the final portfolio-balance fetch of the
ETH-benchmark analyzer fails, the helper swallows the failure into a zero
portfolio value and the analyzer returns a SUCCESS result — not its fixed
fallback — refuting "converts the failure to that analyzer's fixed fallback
value" for every upstream behaviour. -/
theorem C7_error_conversion_counterexample :
    analyzeEthBenchmark (.ok (some [c7tx])) (.ok (some [c7ethHolding])) (.error "network failure")
        = ⟨true, some ⟨0, 100, -100, "UNDERPERFORMED"⟩, none⟩
  ∧ analyzeEthBenchmark (.ok (some [c7tx])) (.ok (some [c7ethHolding])) (.error "network failure")
        ≠ ethBenchmarkFallbackResult := by
  with_unfolding_all decide

/-- C7 (amended): analyzers are total (no exception escapes the embedding) and
every upstream failure is converted to the analyzer's fixed fallback result,
except the ETH-benchmark portfolio-balance fetch, whose failure is converted
to a zero portfolio value inside `calculateCurrentPortfolioValue` (see the
counterexample for the resulting success). -/
theorem C7_error_conversion_amended :
    (∀ (e : String) (years : Nat), analyzePnl (.error e) years = pnlFallbackResult)
  ∧ (∀ e : String, analyzeLabels (.error e) = labelsFallbackResult)
  ∧ (∀ e : String, analyzeLabelsPrd (.error e) = labelsFallbackResult)
  ∧ (∀ e : String, analyzeSmartMoney (.error e) = smartMoneyFallbackResult)
  ∧ (∀ (e : String) (s : Except String (Option (List ScreenedToken))),
        analyzeRuggedProjects (.error e) s = ruggedClearSkiesResult)
  ∧ (∀ (e : String) (b : Except String (Option (List Holding))),
        analyzeRuggedProjects b (.error e) = ruggedClearSkiesResult)
  ∧ (∀ (e : String) (a : Except String (String → Option AthData)),
        analyzePortfolioATH (.error e) a = portfolioAthFallbackResult)
  ∧ (∀ (e : String) (b : Except String (Option (List Holding))),
        analyzePortfolioATH b (.error e) = portfolioAthFallbackResult)
  ∧ (∀ (e : String) (ethBal allBal : Except String (Option (List Holding))),
        analyzeEthBenchmark (.error e) ethBal allBal = ethBenchmarkFallbackResult)
  ∧ (∀ (e : String) (t : Except String (Option (List Transaction)))
        (allBal : Except String (Option (List Holding))),
        analyzeEthBenchmark t (.error e) allBal = ethBenchmarkFallbackResult)
  ∧ (∀ (e : String) (tokens : List String),
        calculateCurrentPortfolioValue (.error e) tokens = 0) := by
  refine ⟨fun e years => rfl, fun e => rfl, fun e => rfl, fun e => rfl, fun e s => rfl,
    ?_, fun e a => rfl, ?_, fun e ethBal allBal => rfl, ?_, fun e tokens => rfl⟩
  · intro e b
    unfold analyzeRuggedProjects
    rcases b with e2 | r
    · rfl
    · rcases r with _ | holdings
      · rfl
      · dsimp only
        split
        · rfl
        · split
          · rfl
          · rfl
  · intro e b
    unfold analyzePortfolioATH
    rcases b with e2 | bd
    · rfl
    · rfl
  · intro e t allBal
    unfold analyzeEthBenchmark
    rcases t with e2 | r
    · rfl
    · rcases r with _ | txs
      · rfl
      · dsimp only
        split
        · rfl
        · split
          · rfl
          · unfold ethBenchmarkFromBuys
            dsimp only
            split
            · rfl
            · simp [getCurrentEthPriceFromNansen]

/-- C9: `analyzePnl` scales the upstream fraction by 100 (every success
result's percent field equals `realized_pnl_percent * 100`), returns the
insufficient-history fallback exactly when both the scaled percent is below
0.01 in magnitude and the USD value below $1 in magnitude, and the raw value
`-0.0002273911194097849`, scaled, renders as `-0.02%` under the two-decimal
`formatPercent` display. -/
theorem C9_pnl_scaling :
    (∀ (r : PnlResponse) (usd : Rat) (years : Nat),
        r.realized_pnl_usd = some usd →
        (analyzePnl (.ok (some r)) years = pnlFallbackResult
          ↔ |r.realized_pnl_percent * 100| < 1/100 ∧ |usd| < 1))
  ∧ (∀ (r : PnlResponse) (years : Nat) (d : PnlData),
        (analyzePnl (.ok (some r)) years).data = some d →
        d.realized_pnl_percent = r.realized_pnl_percent * 100)
  ∧ formatPercent ((-2273911194097849 : Rat) / 10000000000000000000 * 100) = "-0.02%" := by
  refine ⟨?_, ?_, ?_⟩
  · intro r usd years h
    obtain ⟨usdField, pct⟩ := r
    dsimp only at h
    subst h
    unfold analyzePnl
    dsimp only
    by_cases hc : |pct * 100| < 1/100 ∧ |usd| < 1
    · rw [if_pos hc]
      exact iff_of_true rfl hc
    · rw [if_neg hc]
      exact iff_of_false (by simp [pnlFallbackResult]) hc
  · intro r years d h
    obtain ⟨usdField, pct⟩ := r
    rcases usdField with _ | usd
    · simp [analyzePnl, pnlFallbackResult] at h
    · unfold analyzePnl at h
      dsimp only at h
      split at h
      · simp [pnlFallbackResult] at h
      · dsimp only at h
        injection h with h2
        rw [← h2]
  · with_unfolding_all decide

/-- C9 (witness): a response with percent 3 (scaled 300) and USD 5 does not
fall back, by the general characterization. -/
theorem C9_pnl_scaling_witness :
    analyzePnl (.ok (some ⟨some 5, 3⟩)) 1 ≠ pnlFallbackResult := by
  have h := C9_pnl_scaling.1 ⟨some 5, 3⟩ 5 1 rfl
  simp only [ne_eq, h]
  with_unfolding_all decide

/-- No upstream label matches either priority list: every label is free of the
14 case-insensitive substrings and no label is exactly one of the 35 entries. -/
def noPriorityMatch (o : Except String (Option (List LabelRecord))) : Bool :=
  match o with
  | .error _ => true
  | .ok none => true
  | .ok (some response) =>
    (response.all (fun lr =>
        LABEL_PRIORITY.all (fun pl => !(strContainsSub (jsToLower lr.label) (jsToLower pl)))))
      && (LABEL_PRIORITY_PRD.all (fun pl => !((response.map (fun lr => lr.label)).contains pl)))

/-- C10 (counterexample): on the upstream label list `["Whale"]` the
substring implementation succeeds with `Whale` while the exact-match
implementation returns its fallback, so the two implementations do not return
the same result for every upstream label list. -/
theorem C10_labels_refinement_counterexample :
    analyzeLabels (.ok (some [⟨"Whale"⟩])) = ⟨true, some ⟨"Whale"⟩, none⟩
  ∧ analyzeLabelsPrd (.ok (some [⟨"Whale"⟩])) = labelsFallbackResult
  ∧ analyzeLabels (.ok (some [⟨"Whale"⟩])) ≠ analyzeLabelsPrd (.ok (some [⟨"Whale"⟩])) := by
  decide

/-- C10 (amended): the two labels implementations agree on every upstream
outcome in which no label matches either priority list (both returning the
null fallback, in particular on errors, missing payloads and the empty list);
in general they disagree (see the counterexample). -/
theorem C10_labels_refinement_amended (o : Except String (Option (List LabelRecord)))
    (h : noPriorityMatch o = true) :
    analyzeLabels o = analyzeLabelsPrd o := by
  rcases o with e | r
  · rfl
  · rcases r with _ | resp
    · rfl
    · unfold noPriorityMatch at h
      dsimp only at h
      rw [Bool.and_eq_true] at h
      obtain ⟨h14, h35⟩ := h
      unfold analyzeLabels analyzeLabelsPrd
      dsimp only
      by_cases hlen : resp.length = 0
      · rw [if_pos hlen, if_pos hlen]
      · rw [if_neg hlen, if_neg hlen]
        have hscan : (labelPriorityScan (resp.map (fun lr => lr.label))).2 = none := by
          apply labelPriorityScan_none
          intro l hl
          apply jsFindIndex_eq_none
          intro pl hpl
          rw [List.all_eq_true] at h14
          obtain ⟨lr, hlr, rfl⟩ := List.mem_map.mp hl
          have hall := h14 lr hlr
          rw [List.all_eq_true] at hall
          have h2 := hall pl hpl
          rw [Bool.not_eq_eq_eq_not, Bool.not_true] at h2
          exact h2
        have hfind : LABEL_PRIORITY_PRD.find?
            (fun pl => (resp.map (fun lr => lr.label)).contains pl) = none := by
          apply find?_eq_none_of_all_neg
          intro pl hpl
          rw [List.all_eq_true] at h35
          have h2 := h35 pl hpl
          rw [Bool.not_eq_eq_eq_not, Bool.not_true] at h2
          exact h2
        rw [hscan, hfind]

/-- C10 (witness): on the label list `["zzz"]`, which matches neither priority
list, the two implementations agree. -/
theorem C10_labels_refinement_amended_witness :
    analyzeLabels (.ok (some [⟨"zzz"⟩])) = analyzeLabelsPrd (.ok (some [⟨"zzz"⟩])) :=
  C10_labels_refinement_amended _ (by decide)

end NansenPoc
